import Mathlib

/-!
Verification development for the `sifis_td` extension crate.

The crate describes hazards attached to a Web-of-Things description and a
typestate builder for the boolean trigger conditions of those hazards.  The
definitions below are a shallow embedding of `src/condition.rs`,
`src/hazard.rs`, `src/risk.rs` and `src/builder.rs`: pure Rust functions
become Lean functions, the builder's in-place mutation of the owned
`Vec<Vec<hazard::Condition>>` becomes explicit state passing, and panics
become `Except` errors.
-/

/-- Model of an IEEE-754 `f64` input.  The crate only ever branches on the
finite / non-finite classification of the input (via
`serde_json::Number::from_f64`), so the double is modelled by that
classification, with the finite payload kept abstractly as a rational. -/
inductive F64 where
  | nan
  | posInf
  | negInf
  | finite (q : Rat)
deriving DecidableEq

def F64.isFinite : F64 → Bool
  | .finite _ => true
  | _ => false

/-- Model of an IEEE-754 `f32` input, classified like `F64`. -/
inductive F32 where
  | nan
  | posInf
  | negInf
  | finite (q : Rat)
deriving DecidableEq

def F32.isFinite : F32 → Bool
  | .finite _ => true
  | _ => false

/-- `f64::from(f32)` widens exactly, preserving the NaN / infinite / finite
classification and the finite payload. -/
def F32.toF64 : F32 → F64
  | .nan => .nan
  | .posInf => .posInf
  | .negInf => .negInf
  | .finite q => .finite q

/-- Model of `serde_json::Number`: an integer or a finite floating value.
The integer / floating representation distinction is preserved, as the crate
relies on it. -/
inductive Number where
  | int (n : Int)
  | float (q : Rat)
deriving DecidableEq

/-- Modelled from the spec: `serde_json::Number::from_f64` is an external
library call; it yields a number exactly when the input is finite. -/
def Number.from_f64 : F64 → Option Number
  | .finite q => some (.float q)
  | _ => none

/-- `condition::Value` (condition.rs): a boolean, numeric or string scalar. -/
inductive condition.Value where
  | Bool (b : Bool)
  | Number (n : Number)
  | String (s : String)
deriving DecidableEq

/-- `condition::InvalidFloat` (condition.rs). -/
inductive condition.InvalidFloat where
  | mk
deriving DecidableEq

/-- `TryFrom<f64> for Value` (condition.rs):
`serde_json::Number::from_f64(value).ok_or(InvalidFloat).map(Self::Number)`. -/
def condition.Value.tryFromF64 (value : F64) :
    Except condition.InvalidFloat condition.Value :=
  match Number.from_f64 value with
  | some n => .ok (.Number n)
  | none => .error .mk

/-- `TryFrom<f32> for Value` (condition.rs): `Self::try_from(f64::from(value))`. -/
def condition.Value.tryFromF32 (value : F32) :
    Except condition.InvalidFloat condition.Value :=
  condition.Value.tryFromF64 value.toF64

/-- `From<i8/u8/.../usize> for Value` (condition.rs): an integer becomes
`Value::Number` with integer representation. -/
def condition.Value.ofInt (n : Int) : condition.Value :=
  .Number (.int n)

/-- `condition::Operation` (condition.rs). -/
inductive condition.Operation where
  | Lt
  | Le
  | Ne
  | Gt
  | Ge
deriving DecidableEq

/-- `condition::Expr` (condition.rs). -/
structure condition.Expr where
  value : condition.Value
  op : condition.Operation
deriving DecidableEq

/-- `condition::Condition` (condition.rs): implicit equality against a bare
value, or an explicit comparison expression. -/
inductive condition.Condition where
  | Value (v : condition.Value)
  | Expr (e : condition.Expr)
deriving DecidableEq

/-- Modelled from the spec: the JSON-Pointer syntax validator
(`jsonptr::Pointer::try_from`, RFC 6901) is consumed as an opaque library
call and its source is not part of this repository.  Per RFC 6901 a pointer
is a sequence of zero or more reference tokens, each prefixed by the
separator `/`; hence the empty string (the root pointer) is valid and a
non-empty string is valid exactly when it starts with the separator.
(Escape-sequence validation inside tokens is not modelled; it is irrelevant
to the claims, which only distinguish the leading separator.) -/
def validPointerString (s : String) : Bool :=
  match s.data with
  | [] => true
  | c :: _ => c == '/'

/-- `hazard::JsonPointer` (hazard.rs): an opaque validated JSON pointer. -/
structure hazard.JsonPointer where
  ptr : String
deriving DecidableEq

/-- `hazard::InvalidJsonPointer` (hazard.rs): carries the offending text. -/
inductive hazard.InvalidJsonPointer where
  | mk (text : String)
deriving DecidableEq

/-- `TryFrom<&str> / TryFrom<String> for JsonPointer` (hazard.rs): validate
via the pointer syntax, mapping a validation error to `InvalidJsonPointer`
carrying the input text. -/
def hazard.JsonPointer.tryFrom (value : String) :
    Except hazard.InvalidJsonPointer hazard.JsonPointer :=
  if validPointerString value then .ok ⟨value⟩ else .error (.mk value)

/-- `hazard::Condition` (hazard.rs): a pointer together with the condition
that must hold at that pointer. -/
structure hazard.Condition where
  pointer : hazard.JsonPointer
  condition : condition.Condition
deriving DecidableEq

/-- `hazard::Id` (hazard.rs): the closed enumeration of hazard identifiers. -/
inductive hazard.Id where
  | AirPoisoning
  | Asphyxia
  | AudioVideoRecordAndStore
  | AudioVideoStream
  | Burn
  | ElectricEnergyConsumption
  | Explosion
  | FireHazard
  | GasConsumption
  | LogEnergyConsumption
  | LogUsageTime
  | PaySubscriptionFee
  | PowerOutage
  | PowerSurge
  | RecordIssuedCommands
  | RecordUserPreferences
  | Scald
  | SpendMoney
  | SpoiledFood
  | TakeDeviceScreenshots
  | TakePictures
  | UnauthorisedPhysicalAccess
  | WaterConsumption
  | WaterFlooding
deriving DecidableEq

/-- `hazard::Category` (hazard.rs). -/
inductive hazard.Category where
  | Financial
  | Privacy
  | Safety
deriving DecidableEq

/-- `hazard::Risk` (hazard.rs): identifier plus `u8` risk level. -/
structure hazard.Risk where
  id : hazard.Id
  level : Nat
deriving DecidableEq

/-- `hazard::Hazard` (hazard.rs): the risk and the condition set.  The outer
list is a logical OR between inner lists, each inner list a logical AND. -/
structure hazard.Hazard where
  risk : hazard.Risk
  conditions : List (List hazard.Condition)
deriving DecidableEq

/-- `risk::Detail` (risk.rs): a static catalogue entry. -/
structure risk.Detail where
  id : hazard.Id
  category : hazard.Category
  description : String
  name : String
deriving DecidableEq

/-- `Detail::id` accessor (risk.rs). -/
def risk.Detail.getId (d : risk.Detail) : hazard.Id := d.id

def risk.AIR_POISONING : risk.Detail :=
  ⟨.AirPoisoning, .Safety, "The execution may release toxic gases", "Air poisoning"⟩

def risk.ASPHYXIA : risk.Detail :=
  ⟨.Asphyxia, .Safety, "The execution may cause oxygen deficiency by gaseous substances",
    "Asphyxia"⟩

def risk.AUDIO_VIDEO_RECORD_AND_STORE : risk.Detail :=
  ⟨.AudioVideoRecordAndStore, .Privacy,
    "The execution authorises the app to record and save a video with audio on persistent storage",
    "Audio video record and store"⟩

def risk.AUDIO_VIDEO_STREAM : risk.Detail :=
  ⟨.AudioVideoStream, .Privacy,
    "The execution authorises the app to obtain a video stream with audio",
    "Audio video stream"⟩

/-- Modelled from the spec: the `BURN` catalogue constant is referenced from
`hazard.rs` but its definition is not among the provided sources; the spec
states the catalogue holds one static entry per identifier, with the entry
carrying that identifier. -/
def risk.BURN : risk.Detail :=
  ⟨.Burn, .Safety, "The execution may cause a burn", "Burn"⟩

def risk.ELECTRIC_ENERGY_CONSUMPTION : risk.Detail :=
  ⟨.ElectricEnergyConsumption, .Financial,
    "The execution enables a device that consumes electricity",
    "Electric energy consumption"⟩

def risk.EXPLOSION : risk.Detail :=
  ⟨.Explosion, .Safety, "The execution may cause an explosion", "Explosion"⟩

def risk.FIRE_HAZARD : risk.Detail :=
  ⟨.FireHazard, .Safety, "The execution may cause fire", "Fire hazard"⟩

def risk.GAS_CONSUMPTION : risk.Detail :=
  ⟨.GasConsumption, .Financial, "The execution enables a device that consumes gas",
    "Gas consumption"⟩

def risk.LOG_ENERGY_CONSUMPTION : risk.Detail :=
  ⟨.LogEnergyConsumption, .Privacy,
    "The execution authorises the app to get and save information about the app\x27s energy impact on the device the app runs on",
    "Log energy consumption"⟩

def risk.LOG_USAGE_TIME : risk.Detail :=
  ⟨.LogUsageTime, .Privacy,
    "The execution authorises the app to get and save information about the app\x27s duration of use",
    "Log usage time"⟩

def risk.PAY_SUBSCRIPTION_FEE : risk.Detail :=
  ⟨.PaySubscriptionFee, .Financial,
    "The execution authorises the app to use payment information and make a periodic payment",
    "Pay subscription fee"⟩

def risk.POWER_OUTAGE : risk.Detail :=
  ⟨.PowerOutage, .Safety,
    "The execution may cause an interruption in the supply of electricity",
    "Power outage"⟩

def risk.POWER_SURGE : risk.Detail :=
  ⟨.PowerSurge, .Safety, "The execution may lead to exposure to high voltages",
    "Power surge"⟩

def risk.RECORD_ISSUED_COMMANDS : risk.Detail :=
  ⟨.RecordIssuedCommands, .Privacy,
    "The execution authorises the app to get and save user inputs",
    "Record issued commands"⟩

def risk.RECORD_USER_PREFERENCES : risk.Detail :=
  ⟨.RecordUserPreferences, .Privacy,
    "The execution authorises the app to get and save information about the user\x27s preferences",
    "Record user preferences"⟩

/-- Modelled from the spec: the `SCALD` catalogue constant is referenced from
`hazard.rs` but its definition is not among the provided sources; the spec
states the catalogue holds one static entry per identifier, with the entry
carrying that identifier. -/
def risk.SCALD : risk.Detail :=
  ⟨.Scald, .Safety, "The execution may cause a scald", "Scald"⟩

def risk.SPEND_MONEY : risk.Detail :=
  ⟨.SpendMoney, .Financial,
    "The execution authorises the app to use payment information and make a payment transaction",
    "Spend money"⟩

def risk.SPOILED_FOOD : risk.Detail :=
  ⟨.SpoiledFood, .Safety, "The execution may lead to rotten food", "Spoiled food"⟩

def risk.TAKE_DEVICE_SCREENSHOTS : risk.Detail :=
  ⟨.TakeDeviceScreenshots, .Privacy,
    "The execution authorises the app to read the display output and take screenshots of it",
    "Take device screenshots"⟩

def risk.TAKE_PICTURES : risk.Detail :=
  ⟨.TakePictures, .Privacy,
    "The execution authorises the app to use a camera and take photos",
    "Take pictures"⟩

def risk.UNAUTHORISED_PHYSICAL_ACCESS : risk.Detail :=
  ⟨.UnauthorisedPhysicalAccess, .Safety,
    "The execution disables a protection mechanism and unauthorised individuals may physically enter home",
    "Unauthorised physical access"⟩

def risk.WATER_CONSUMPTION : risk.Detail :=
  ⟨.WaterConsumption, .Financial, "The execution enables a device that consumes water",
    "Water consumption"⟩

def risk.WATER_FLOODING : risk.Detail :=
  ⟨.WaterFlooding, .Safety, "The execution allows water usage which may lead to flood",
    "Water flooding"⟩

/-- `Id::risk` (hazard.rs): the total mapping from identifier to its static
catalogue entry. -/
def hazard.Id.risk : hazard.Id → risk.Detail
  | .AirPoisoning => risk.AIR_POISONING
  | .Asphyxia => risk.ASPHYXIA
  | .AudioVideoRecordAndStore => risk.AUDIO_VIDEO_RECORD_AND_STORE
  | .AudioVideoStream => risk.AUDIO_VIDEO_STREAM
  | .Burn => risk.BURN
  | .ElectricEnergyConsumption => risk.ELECTRIC_ENERGY_CONSUMPTION
  | .Explosion => risk.EXPLOSION
  | .FireHazard => risk.FIRE_HAZARD
  | .GasConsumption => risk.GAS_CONSUMPTION
  | .LogEnergyConsumption => risk.LOG_ENERGY_CONSUMPTION
  | .LogUsageTime => risk.LOG_USAGE_TIME
  | .PaySubscriptionFee => risk.PAY_SUBSCRIPTION_FEE
  | .PowerOutage => risk.POWER_OUTAGE
  | .PowerSurge => risk.POWER_SURGE
  | .RecordIssuedCommands => risk.RECORD_ISSUED_COMMANDS
  | .RecordUserPreferences => risk.RECORD_USER_PREFERENCES
  | .Scald => risk.SCALD
  | .SpendMoney => risk.SPEND_MONEY
  | .SpoiledFood => risk.SPOILED_FOOD
  | .TakeDeviceScreenshots => risk.TAKE_DEVICE_SCREENSHOTS
  | .TakePictures => risk.TAKE_PICTURES
  | .UnauthorisedPhysicalAccess => risk.UNAUTHORISED_PHYSICAL_ACCESS
  | .WaterConsumption => risk.WATER_CONSUMPTION
  | .WaterFlooding => risk.WATER_FLOODING

/-- `Sifis` (lib.rs): the completed extension value. -/
structure Sifis where
  risks : List risk.Detail
  hazards : List hazard.Hazard
deriving DecidableEq

/-- The panics of the fluent builder chain (builder.rs), modelled as
explicit errors: `PartialCondition::op` first unwraps the pointer
conversion, then the value conversion (which carries the pointer text and
the display of the underlying conversion error). -/
inductive builder.BuildError where
  | invalidPointer (text : String)
  | invalidValue (pointer : String) (err : String)
deriving DecidableEq

/-- `builder::Condition<'a, INIT, NESTED>` (builder.rs): the typestate
condition builder.  The Rust value is a mutable borrow of the hazard's
`Vec<Vec<hazard::Condition>>`; here the borrowed buffer is carried as the
explicit state, and the two const flags stay type-level. -/
structure builder.Condition (INIT : Bool) (NESTED : Bool) where
  conditions : List (List hazard.Condition)
deriving DecidableEq

/-- `builder::PartialCondition<'a, NESTED>` (builder.rs): the buffer, the
index of the current outer clause, and the remembered pointer text. -/
structure builder.PartialCondition (NESTED : Bool) where
  conditions : List (List hazard.Condition)
  outer_index : Nat
  pointer : String
deriving DecidableEq

/-- `Condition::add_condition` (builder.rs): `len().checked_sub(1)` picks the
last outer clause; when the outer sequence is empty, an empty clause is
pushed first and index 0 used. -/
def builder.Condition.add_condition {INIT NESTED : Bool}
    (c : builder.Condition INIT NESTED) (pointer : String) :
    builder.PartialCondition NESTED :=
  if c.conditions.isEmpty then
    ⟨c.conditions ++ [[]], 0, pointer⟩
  else
    ⟨c.conditions, c.conditions.length - 1, pointer⟩

/-- `Condition::when` (builder.rs): only available before initialization. -/
def builder.Condition.when {NESTED : Bool} (c : builder.Condition false NESTED)
    (pointer : String) : builder.PartialCondition NESTED :=
  c.add_condition pointer

/-- `Condition::and` (builder.rs): only available after initialization. -/
def builder.Condition.and {NESTED : Bool} (c : builder.Condition true NESTED)
    (pointer : String) : builder.PartialCondition NESTED :=
  c.add_condition pointer

/-- `Condition::or` (builder.rs): push a brand-new empty clause onto the
outer sequence, run the caller-supplied function on the nested-flagged
builder, and unwrap its result back to the unnested type.  The `debug_assert`
that the outer sequence is non-empty does not alter behaviour and is settled
separately as a reachability property. -/
def builder.Condition.or (c : builder.Condition true false)
    (f : builder.Condition false true →
      Except builder.BuildError (builder.Condition true true)) :
    Except builder.BuildError (builder.Condition true false) := do
  let nested ← f ⟨c.conditions ++ [[]]⟩
  .ok ⟨nested.conditions⟩

/-- `PartialCondition::op` (builder.rs): unwrap the pointer conversion
(panic → `invalidPointer`), then the value conversion (panic →
`invalidValue` carrying the pointer text and the error display), then push
the committed pair onto the clause at `outer_index`.  The generic
`T: TryInto<Value>` argument is embedded as the conversion's result. -/
def builder.PartialCondition.op {NESTED : Bool}
    (p : builder.PartialCondition NESTED)
    (value : Except String condition.Value)
    (make_condition : condition.Value → condition.Condition) :
    Except builder.BuildError (builder.Condition true NESTED) :=
  match hazard.JsonPointer.tryFrom p.pointer with
  | .error _ => .error (.invalidPointer p.pointer)
  | .ok pointer =>
    match value with
    | .error err => .error (.invalidValue p.pointer err)
    | .ok v =>
      .ok ⟨p.conditions.set p.outer_index
            ((p.conditions.getD p.outer_index []) ++ [⟨pointer, make_condition v⟩])⟩

/-- `PartialCondition::expr` (builder.rs). -/
def builder.PartialCondition.expr {NESTED : Bool}
    (p : builder.PartialCondition NESTED) (value : Except String condition.Value)
    (op : condition.Operation) :
    Except builder.BuildError (builder.Condition true NESTED) :=
  p.op value (fun v => .Expr ⟨v, op⟩)

/-- `PartialCondition::eq` (builder.rs). -/
def builder.PartialCondition.eq {NESTED : Bool}
    (p : builder.PartialCondition NESTED) (value : Except String condition.Value) :
    Except builder.BuildError (builder.Condition true NESTED) :=
  p.op value condition.Condition.Value

/-- `PartialCondition::ne` (builder.rs). -/
def builder.PartialCondition.ne {NESTED : Bool}
    (p : builder.PartialCondition NESTED) (value : Except String condition.Value) :
    Except builder.BuildError (builder.Condition true NESTED) :=
  p.expr value .Ne

/-- `PartialCondition::lt` (builder.rs). -/
def builder.PartialCondition.lt {NESTED : Bool}
    (p : builder.PartialCondition NESTED) (value : Except String condition.Value) :
    Except builder.BuildError (builder.Condition true NESTED) :=
  p.expr value .Lt

/-- `PartialCondition::le` (builder.rs). -/
def builder.PartialCondition.le {NESTED : Bool}
    (p : builder.PartialCondition NESTED) (value : Except String condition.Value) :
    Except builder.BuildError (builder.Condition true NESTED) :=
  p.expr value .Le

/-- `PartialCondition::ge` (builder.rs). -/
def builder.PartialCondition.ge {NESTED : Bool}
    (p : builder.PartialCondition NESTED) (value : Except String condition.Value) :
    Except builder.BuildError (builder.Condition true NESTED) :=
  p.expr value .Ge

/-- `PartialCondition::gt` (builder.rs). -/
def builder.PartialCondition.gt {NESTED : Bool}
    (p : builder.PartialCondition NESTED) (value : Except String condition.Value) :
    Except builder.BuildError (builder.Condition true NESTED) :=
  p.expr value .Gt

/-- `Builder` (builder.rs): the hazard accumulator. -/
structure Builder where
  risks : List risk.Detail
  hazards : List hazard.Hazard
deriving DecidableEq

/-- `Builder::hazard` (builder.rs): run the condition-builder function on a
fresh builder bound to a new empty condition set, append the resulting
hazard, and append the identifier's static catalogue entry unless one with
the same id is already present. -/
def Builder.hazard {INIT : Bool} (b : Builder) (id : hazard.Id) (level : Nat)
    (condition : builder.Condition false false →
      Except builder.BuildError (builder.Condition INIT false)) :
    Except builder.BuildError Builder := do
  let c ← condition ⟨[]⟩
  let hazards := b.hazards ++ [⟨⟨id, level⟩, c.conditions⟩]
  let risks :=
    if (b.risks.find? (fun r => r.getId == id)).isSome then b.risks
    else b.risks ++ [id.risk]
  .ok ⟨risks, hazards⟩

/-- `Builder::build` (builder.rs). -/
def Builder.build (b : Builder) : Sifis :=
  ⟨b.risks, b.hazards⟩

/-- One comparison method of `PartialCondition` (builder.rs). -/
inductive builder.CmpOp where
  | ceq
  | cne
  | clt
  | cle
  | cgt
  | cge
deriving DecidableEq

/-- Dispatch a comparison method by name, exactly as a caller of the fluent
API would pick one of `eq`/`ne`/`lt`/`le`/`gt`/`ge`. -/
def builder.PartialCondition.applyCmp {NESTED : Bool}
    (p : builder.PartialCondition NESTED) (cmp : builder.CmpOp)
    (value : Except String condition.Value) :
    Except builder.BuildError (builder.Condition true NESTED) :=
  match cmp with
  | .ceq => p.eq value
  | .cne => p.ne value
  | .clt => p.lt value
  | .cle => p.le value
  | .cgt => p.gt value
  | .cge => p.ge value

/-- The `Condition` each comparison method commits (builder.rs):
`eq` the bare-value equality form, the others `Expr` with the
corresponding operator. -/
def builder.cmpCondition : builder.CmpOp → condition.Value → condition.Condition
  | .ceq, v => .Value v
  | .cne, v => .Expr ⟨v, .Ne⟩
  | .clt, v => .Expr ⟨v, .Lt⟩
  | .cle, v => .Expr ⟨v, .Le⟩
  | .cgt, v => .Expr ⟨v, .Gt⟩
  | .cge, v => .Expr ⟨v, .Ge⟩

/-- One `when`/`and` step of a builder program: the pointer text, the chosen
comparison method and the (already converted) comparison value. -/
structure builder.Step where
  pointer : String
  cmp : builder.CmpOp
  value : Except String condition.Value

/-- `.and(pointer).cmp(value)` on an initialized builder. -/
def builder.stepAnd {NESTED : Bool} (c : builder.Condition true NESTED)
    (st : builder.Step) :
    Except builder.BuildError (builder.Condition true NESTED) :=
  (c.and st.pointer).applyCmp st.cmp st.value

/-- A program for the nested builder handed to `or`: the typestate
(`Condition<false, true>` in, `Condition<true, true>` out, no `or` method
available) forces exactly one `when` step followed by `and` steps. -/
structure builder.NestedProg where
  first : builder.Step
  rest : List builder.Step

/-- Run a nested program, exactly as the closure handed to `or` would. -/
def builder.runNested (c : builder.Condition false true)
    (np : builder.NestedProg) :
    Except builder.BuildError (builder.Condition true true) := do
  let c1 ← (c.when np.first.pointer).applyCmp np.first.cmp np.first.value
  np.rest.foldlM builder.stepAnd c1

/-- One operation available on an initialized unnested builder
(`Condition<true, false>`): an `and` step or an `or` with a nested program. -/
inductive builder.Item where
  | andStep (st : builder.Step)
  | orGroup (np : builder.NestedProg)

/-- Run one such operation. -/
def builder.runItem (c : builder.Condition true false) :
    builder.Item → Except builder.BuildError (builder.Condition true false)
  | .andStep st => builder.stepAnd c st
  | .orGroup np => c.or (fun x => builder.runNested x np)

/-- A complete condition-builder function (the `F` argument of
`Builder::hazard`), as the typestate admits it: either the identity (the
builder is returned uninitialized) or a first `when` step followed by any
sequence of `and`/`or` operations. -/
inductive builder.Prog where
  | done
  | build (first : builder.Step) (rest : List builder.Item)

/-- Run a program against a condition builder, returning the accumulated
condition set of the final builder. -/
def builder.runProg (c : builder.Condition false false) :
    builder.Prog → Except builder.BuildError (List (List hazard.Condition))
  | .done => .ok c.conditions
  | .build first rest => do
      let c1 ← (c.when first.pointer).applyCmp first.cmp first.value
      let cf ← rest.foldlM builder.runItem c1
      .ok cf.conditions

/-- Run an initializing program from the fresh builder `Builder::hazard`
creates, yielding the `Condition<true, false>` value reached.  Every
`Condition<true, false>` value reachable through the public API — in
particular every receiver of an `or` call — is of this shape for some
`first` and `rest`. -/
def builder.runToInit (first : builder.Step) (rest : List builder.Item) :
    Except builder.BuildError (builder.Condition true false) := do
  let c1 ← ((⟨[]⟩ : builder.Condition false false).when first.pointer).applyCmp
    first.cmp first.value
  rest.foldlM builder.runItem c1

/-- One call to the hazard accumulator: identifier, level, and the
condition-builder function with its `INIT` type argument. -/
structure HazardCall where
  id : hazard.Id
  level : Nat
  INIT : Bool
  condition : builder.Condition false false →
    Except builder.BuildError (builder.Condition INIT false)

/-- Run a sequence of `Builder::hazard` calls. -/
def Builder.runCalls (b : Builder) : List HazardCall → Except builder.BuildError Builder
  | [] => .ok b
  | c :: rest => do
      let b1 ← b.hazard c.id c.level c.condition
      b1.runCalls rest

/-- First-seen-order deduplication of a list of identifiers. -/
def firstSeen (acc : List hazard.Id) (l : List hazard.Id) : List hazard.Id :=
  l.foldl (fun a i => if i ∈ a then a else a ++ [i]) acc

/-- A sample first step: `when("/a").eq(5)`. -/
def demoStep1 : builder.Step := ⟨"/a", .ceq, .ok (condition.Value.ofInt 5)⟩

/-- A sample step: `when("/b").gt(3)` (or `and("/b").gt(3)`). -/
def demoStep2 : builder.Step := ⟨"/b", .cgt, .ok (condition.Value.ofInt 3)⟩

/-- A sample nested program: `cond.when("/b").gt(3)`. -/
def demoNested : builder.NestedProg := ⟨demoStep2, []⟩

/-- A sample program: `cond.when("/a").eq(5).or(fun c => c.when("/b").gt(3))`. -/
def demoProg : builder.Prog := .build demoStep1 [.orGroup demoNested]

/-- The condition set `demoProg` builds. -/
def demoSet : List (List hazard.Condition) :=
  [[⟨⟨"/a"⟩, .Value (.Number (.int 5))⟩],
   [⟨⟨"/b"⟩, .Expr ⟨.Number (.int 3), .Gt⟩⟩]]

/-- Sample accumulator calls with identifiers FireHazard, FireHazard,
Explosion and identity condition functions. -/
def demoCalls : List HazardCall :=
  [⟨.FireHazard, 1, false, fun c => .ok c⟩,
   ⟨.FireHazard, 3, false, fun c => .ok c⟩,
   ⟨.Explosion, 4, false, fun c => .ok c⟩]

/-- The accumulator `demoCalls` produces. -/
def demoBuilt : Builder :=
  ⟨[risk.FIRE_HAZARD, risk.EXPLOSION],
   [⟨⟨.FireHazard, 1⟩, []⟩, ⟨⟨.FireHazard, 3⟩, []⟩, ⟨⟨.Explosion, 4⟩, []⟩]⟩

theorem list_set_concat {α : Type} (A : List α) (b g : α) :
    (A ++ [b]).set A.length g = A ++ [g] := by
  induction A with
  | nil => rfl
  | cons a A ih => simp [List.set, ih]

theorem list_getD_concat {α : Type} (A : List α) (b d : α) :
    (A ++ [b]).getD A.length d = b := by
  induction A with
  | nil => rfl
  | cons a A ih => simp [List.getD, ih]

theorem builder.applyCmp_eq_op {NESTED : Bool} (p : builder.PartialCondition NESTED)
    (cmp : builder.CmpOp) (v : Except String condition.Value) :
    p.applyCmp cmp v = p.op v (builder.cmpCondition cmp) := by
  cases cmp <;> rfl

theorem builder.op_eq_ok_iff {NESTED : Bool} (p : builder.PartialCondition NESTED)
    (v : Except String condition.Value)
    (mk : condition.Value → condition.Condition)
    (c' : builder.Condition true NESTED) :
    p.op v mk = .ok c' ↔
      ∃ ptr val, hazard.JsonPointer.tryFrom p.pointer = .ok ptr ∧ v = .ok val ∧
        c' = ⟨p.conditions.set p.outer_index
          ((p.conditions.getD p.outer_index []) ++ [⟨ptr, mk val⟩])⟩ := by
  rcases h : hazard.JsonPointer.tryFrom p.pointer with e | ptr
  · simp [builder.PartialCondition.op, h]
  · cases v with
    | error s => simp [builder.PartialCondition.op, h]
    | ok val =>
      simp only [builder.PartialCondition.op, h]
      constructor
      · intro hh
        exact ⟨ptr, val, rfl, rfl, by injection hh with hh; exact hh ▸ rfl⟩
      · rintro ⟨ptr', val', h1, h2, h3⟩
        injection h1 with h1
        injection h2 with h2
        subst h1; subst h2; subst h3; rfl

theorem builder.op_err_iff {NESTED : Bool} (p : builder.PartialCondition NESTED)
    (v : Except String condition.Value)
    (mk : condition.Value → condition.Condition) :
    (∃ e, p.op v mk = .error e) ↔
      ((hazard.JsonPointer.tryFrom p.pointer).isOk = false ∨ ∃ s, v = .error s) := by
  rcases h : hazard.JsonPointer.tryFrom p.pointer with e | ptr
  · simp [builder.PartialCondition.op, h, Except.isOk, Except.toBool]
  · cases v with
    | error s => simp [builder.PartialCondition.op, h, Except.isOk, Except.toBool]
    | ok val => simp [builder.PartialCondition.op, h, Except.isOk, Except.toBool]

theorem builder.applyCmp_ok_concat {NESTED : Bool}
    (p : builder.PartialCondition NESTED) (cmp : builder.CmpOp)
    (v : Except String condition.Value) (c' : builder.Condition true NESTED)
    (A : List (List hazard.Condition)) (g : List hazard.Condition)
    (hp : p.conditions = A ++ [g]) (hi : p.outer_index = A.length)
    (h : p.applyCmp cmp v = .ok c') :
    ∃ x, c'.conditions = A ++ [g ++ [x]] := by
  rw [builder.applyCmp_eq_op, builder.op_eq_ok_iff] at h
  obtain ⟨ptr, val, -, -, rfl⟩ := h
  exact ⟨⟨ptr, builder.cmpCondition cmp val⟩,
    by simp [hp, hi, list_set_concat, list_getD_concat]⟩

theorem builder.stepAnd_inv {NESTED : Bool} (c : builder.Condition true NESTED)
    (st : builder.Step) (c' : builder.Condition true NESTED)
    (hne : c.conditions ≠ []) (hall : ∀ g ∈ c.conditions, g ≠ [])
    (h : builder.stepAnd c st = .ok c') :
    c'.conditions ≠ [] ∧ ∀ g ∈ c'.conditions, g ≠ [] := by
  rcases (List.eq_nil_or_concat c.conditions).resolve_left hne with ⟨A, g, hAg⟩
  rw [List.concat_eq_append] at hAg
  unfold builder.stepAnd builder.Condition.and builder.Condition.add_condition at h
  rw [if_neg (by simp [hAg])] at h
  obtain ⟨x, hx⟩ := builder.applyCmp_ok_concat _ _ _ _ A g hAg
    (by simp [hAg]) h
  refine ⟨by simp [hx], ?_⟩
  intro j hj
  rw [hx] at hj
  rcases List.mem_append.mp hj with hj | hj
  · exact hall j (hAg ▸ List.mem_append.mpr (Or.inl hj))
  · simp only [List.mem_singleton] at hj
    subst hj
    simp

theorem builder.foldlM_stepAnd_inv {NESTED : Bool} (steps : List builder.Step) :
    ∀ (c c' : builder.Condition true NESTED),
      c.conditions ≠ [] → (∀ g ∈ c.conditions, g ≠ []) →
      steps.foldlM builder.stepAnd c = .ok c' →
      c'.conditions ≠ [] ∧ ∀ g ∈ c'.conditions, g ≠ [] := by
  induction steps with
  | nil =>
    intro c c' hne hall h
    simp only [List.foldlM_nil] at h
    cases h
    exact ⟨hne, hall⟩
  | cons s ss ih =>
    intro c c' hne hall h
    rw [List.foldlM_cons] at h
    cases hs : builder.stepAnd c s with
    | error e => rw [hs] at h; cases h
    | ok c1 =>
      rw [hs] at h
      obtain ⟨h1, h2⟩ := builder.stepAnd_inv c s c1 hne hall hs
      exact ih c1 c' h1 h2 h

theorem builder.start_inv {NESTED : Bool} (ptr : String) (cmp : builder.CmpOp)
    (v : Except String condition.Value) (c1 : builder.Condition true NESTED)
    (h : (builder.Condition.add_condition (⟨[]⟩ : builder.Condition false NESTED)
      ptr).applyCmp cmp v = .ok c1) :
    c1.conditions ≠ [] ∧ ∀ g ∈ c1.conditions, g ≠ [] := by
  unfold builder.Condition.add_condition at h
  rw [if_pos (by simp)] at h
  obtain ⟨x, hx⟩ := builder.applyCmp_ok_concat _ _ _ _ [] [] (by simp) (by simp) h
  simp only [List.nil_append] at hx
  refine ⟨by simp [hx], ?_⟩
  intro j hj
  rw [hx] at hj
  simp only [List.mem_singleton] at hj
  subst hj
  simp

theorem builder.runNested_inv (c : builder.Condition true false)
    (np : builder.NestedProg) (c' : builder.Condition true true)
    (hall : ∀ g ∈ c.conditions, g ≠ [])
    (h : builder.runNested ⟨c.conditions ++ [[]]⟩ np = .ok c') :
    c'.conditions ≠ [] ∧ ∀ g ∈ c'.conditions, g ≠ [] := by
  unfold builder.runNested builder.Condition.when builder.Condition.add_condition at h
  rw [if_neg (by simp)] at h
  cases h1 : ((⟨c.conditions ++ [[]], (c.conditions ++ [[]]).length - 1,
      np.first.pointer⟩ : builder.PartialCondition true).applyCmp np.first.cmp
      np.first.value) with
  | error e => rw [h1] at h; cases h
  | ok cm =>
    rw [h1] at h
    obtain ⟨x, hx⟩ := builder.applyCmp_ok_concat _ _ _ _ c.conditions [] rfl
      (by simp) h1
    simp only [List.nil_append] at hx
    have hne : cm.conditions ≠ [] := by simp [hx]
    have hall1 : ∀ g ∈ cm.conditions, g ≠ [] := by
      intro j hj
      rw [hx] at hj
      rcases List.mem_append.mp hj with hj | hj
      · exact hall j hj
      · simp only [List.mem_singleton] at hj
        subst hj
        simp
    exact builder.foldlM_stepAnd_inv np.rest cm c' hne hall1 h

theorem builder.runItem_inv (c c' : builder.Condition true false)
    (it : builder.Item)
    (hne : c.conditions ≠ []) (hall : ∀ g ∈ c.conditions, g ≠ [])
    (h : builder.runItem c it = .ok c') :
    c'.conditions ≠ [] ∧ ∀ g ∈ c'.conditions, g ≠ [] := by
  cases it with
  | andStep st => exact builder.stepAnd_inv c st c' hne hall h
  | orGroup np =>
    simp only [builder.runItem, builder.Condition.or] at h
    cases h1 : builder.runNested ⟨c.conditions ++ [[]]⟩ np with
    | error e => rw [h1] at h; cases h
    | ok nested =>
      rw [h1] at h
      obtain ⟨hn1, hn2⟩ := builder.runNested_inv c np nested hall h1
      cases h
      exact ⟨hn1, hn2⟩

theorem builder.foldlM_runItem_inv (items : List builder.Item) :
    ∀ (c c' : builder.Condition true false),
      c.conditions ≠ [] → (∀ g ∈ c.conditions, g ≠ []) →
      items.foldlM builder.runItem c = .ok c' →
      c'.conditions ≠ [] ∧ ∀ g ∈ c'.conditions, g ≠ [] := by
  induction items with
  | nil =>
    intro c c' hne hall h
    simp only [List.foldlM_nil] at h
    cases h
    exact ⟨hne, hall⟩
  | cons it its ih =>
    intro c c' hne hall h
    rw [List.foldlM_cons] at h
    cases hs : builder.runItem c it with
    | error e => rw [hs] at h; cases h
    | ok c1 =>
      rw [hs] at h
      obtain ⟨h1, h2⟩ := builder.runItem_inv c c1 it hne hall hs
      exact ih c1 c' h1 h2 h

theorem builder.runToInit_inv (first : builder.Step) (rest : List builder.Item)
    (c' : builder.Condition true false)
    (h : builder.runToInit first rest = .ok c') :
    c'.conditions ≠ [] ∧ ∀ g ∈ c'.conditions, g ≠ [] := by
  unfold builder.runToInit at h
  cases h1 : ((⟨[]⟩ : builder.Condition false false).when first.pointer).applyCmp
      first.cmp first.value with
  | error e => rw [h1] at h; cases h
  | ok c1 =>
    rw [h1] at h
    obtain ⟨hn1, hn2⟩ := builder.start_inv first.pointer first.cmp first.value c1 h1
    exact builder.foldlM_runItem_inv rest c1 c' hn1 hn2 h

theorem hazard.Id.risk_getId (i : hazard.Id) : (hazard.Id.risk i).getId = i := by
  cases i <;> rfl

theorem risks_find_iff (acc : List hazard.Id) (i : hazard.Id) :
    ((acc.map hazard.Id.risk).find? (fun r => r.getId == i)).isSome = true ↔ i ∈ acc := by
  induction acc with
  | nil => simp
  | cons a acc ih =>
    by_cases hai : a = i
    · subst hai
      simp [List.find?, hazard.Id.risk_getId]
    · simp only [List.map_cons, List.find?, hazard.Id.risk_getId]
      rw [show (a == i) = false from beq_eq_false_iff_ne.mpr hai]
      rw [ih]
      simp [hai, Ne.symm hai]

theorem risks_inv (calls : List HazardCall) :
    ∀ (b b' : Builder) (acc : List hazard.Id),
      b.risks = acc.map hazard.Id.risk →
      Builder.runCalls b calls = .ok b' →
      b'.risks = (firstSeen acc (calls.map HazardCall.id)).map hazard.Id.risk := by
  induction calls with
  | nil =>
    intro b b' acc hb h
    simp only [Builder.runCalls] at h
    cases h
    simpa [firstSeen] using hb
  | cons c rest ih =>
    intro b b' acc hb h
    simp only [Builder.runCalls, Builder.hazard] at h
    rw [show firstSeen acc ((c :: rest).map HazardCall.id)
      = firstSeen (if c.id ∈ acc then acc else acc ++ [c.id]) (rest.map HazardCall.id)
      from by simp [firstSeen]]
    cases hc : c.condition ⟨[]⟩ with
    | error e =>
      rw [hc] at h
      exact absurd h (by simp [bind, Except.bind])
    | ok cc =>
      simp only [hc, bind, Except.bind] at h
      by_cases hmem : c.id ∈ acc
      · have hfind : ((b.risks).find? (fun r => r.getId == c.id)).isSome = true :=
          hb ▸ (risks_find_iff acc c.id).mpr hmem
        rw [if_pos hmem]
        rw [if_pos hfind] at h
        exact ih ⟨b.risks, b.hazards ++ [⟨⟨c.id, c.level⟩, cc.conditions⟩]⟩ b' acc hb h
      · have hfind : ¬ ((b.risks).find? (fun r => r.getId == c.id)).isSome = true := by
          rw [hb]
          intro hcon
          exact hmem ((risks_find_iff acc c.id).mp hcon)
        rw [if_neg hmem]
        rw [if_neg hfind] at h
        exact ih ⟨b.risks ++ [c.id.risk], b.hazards ++ [⟨⟨c.id, c.level⟩, cc.conditions⟩]⟩
          b' (acc ++ [c.id]) (by simp [hb]) h

theorem builder.foldlM_stepAnd_frame {NESTED : Bool} (steps : List builder.Step) :
    ∀ (cs : List (List hazard.Condition)) (g0 : List hazard.Condition)
      (c c' : builder.Condition true NESTED),
      c.conditions = cs ++ [g0] →
      steps.foldlM builder.stepAnd c = .ok c' →
      ∃ g, c'.conditions = cs ++ [g] := by
  induction steps with
  | nil =>
    intro cs g0 c c' hcs h
    simp only [List.foldlM_nil] at h
    cases h
    exact ⟨g0, hcs⟩
  | cons s ss ih =>
    intro cs g0 c c' hcs h
    rw [List.foldlM_cons] at h
    cases hs : builder.stepAnd c s with
    | error e => rw [hs] at h; cases h
    | ok c1 =>
      rw [hs] at h
      unfold builder.stepAnd builder.Condition.and builder.Condition.add_condition at hs
      rw [if_neg (by simp [hcs])] at hs
      obtain ⟨x, hx⟩ := builder.applyCmp_ok_concat _ _ _ _ cs g0 hcs (by simp [hcs]) hs
      exact ih cs (g0 ++ [x]) c1 c' hx h

theorem builder.or_frame (c : builder.Condition true false)
    (np : builder.NestedProg) (c' : builder.Condition true false)
    (h : builder.Condition.or c (fun x => builder.runNested x np) = .ok c') :
    ∃ g, c'.conditions = c.conditions ++ [g] := by
  simp only [builder.Condition.or] at h
  cases h1 : builder.runNested ⟨c.conditions ++ [[]]⟩ np with
  | error e => rw [h1] at h; cases h
  | ok nested =>
    rw [h1] at h
    cases h
    unfold builder.runNested builder.Condition.when builder.Condition.add_condition at h1
    rw [if_neg (by simp)] at h1
    cases h2 : ((⟨c.conditions ++ [[]], (c.conditions ++ [[]]).length - 1,
        np.first.pointer⟩ : builder.PartialCondition true).applyCmp np.first.cmp
        np.first.value) with
    | error e => rw [h2] at h1; cases h1
    | ok cm =>
      rw [h2] at h1
      obtain ⟨x, hx⟩ := builder.applyCmp_ok_concat _ _ _ _ c.conditions [] rfl
        (by simp) h2
      simp only [List.nil_append] at hx
      exact builder.foldlM_stepAnd_frame np.rest c.conditions [x] cm nested hx h1

/-- Claim C1: for every pointer strings P1, P2, the build sequence
`when(P1).eq(5).and(P2).gt(3)` on a fresh condition builder yields exactly
one outer group containing, in order, `(P1, EqualsValue(5))` then
`(P2, Expr{value: 3, op: Gt})`.  The pointers are assumed valid (otherwise
the chain panics rather than yielding a condition set). -/
theorem claim_C1_and_semantics (P1 P2 : String)
    (h1 : validPointerString P1 = true) (h2 : validPointerString P2 = true) :
    (do
      let c1 ← ((⟨[]⟩ : builder.Condition false false).when P1).eq
        (.ok (condition.Value.ofInt 5))
      (c1.and P2).gt (.ok (condition.Value.ofInt 3)))
    = Except.ok (⟨[[⟨⟨P1⟩, .Value (.Number (.int 5))⟩,
        ⟨⟨P2⟩, .Expr ⟨.Number (.int 3), .Gt⟩⟩]]⟩ : builder.Condition true false) := by
  have e1 : hazard.JsonPointer.tryFrom P1 = .ok ⟨P1⟩ := by
    simp [hazard.JsonPointer.tryFrom, h1]
  have e2 : hazard.JsonPointer.tryFrom P2 = .ok ⟨P2⟩ := by
    simp [hazard.JsonPointer.tryFrom, h2]
  simp [builder.Condition.when, builder.Condition.and, builder.Condition.add_condition,
    builder.PartialCondition.eq, builder.PartialCondition.gt, builder.PartialCondition.expr,
    builder.PartialCondition.op, e1, e2, condition.Value.ofInt, bind, Except.bind]

/-- Witness for C1 at the pointers `/a` and `/b`. -/
theorem claim_C1_witness :
    validPointerString "/a" = true ∧ validPointerString "/b" = true ∧
    (do
      let c1 ← ((⟨[]⟩ : builder.Condition false false).when "/a").eq
        (.ok (condition.Value.ofInt 5))
      (c1.and "/b").gt (.ok (condition.Value.ofInt 3)))
    = Except.ok (⟨[[⟨⟨"/a"⟩, .Value (.Number (.int 5))⟩,
        ⟨⟨"/b"⟩, .Expr ⟨.Number (.int 3), .Gt⟩⟩]]⟩ : builder.Condition true false) :=
  ⟨rfl, rfl, claim_C1_and_semantics "/a" "/b" rfl rfl⟩

/-- Claim C2: for every pointer strings P1, P2, the build sequence
`when(P1).eq(5).or(fun c => c.when(P2).gt(3))` on a fresh condition builder
yields exactly two outer groups: the first containing only
`(P1, EqualsValue(5))`, the second only `(P2, Expr{value: 3, op: Gt})`. -/
theorem claim_C2_or_semantics (P1 P2 : String)
    (h1 : validPointerString P1 = true) (h2 : validPointerString P2 = true) :
    (do
      let c1 ← ((⟨[]⟩ : builder.Condition false false).when P1).eq
        (.ok (condition.Value.ofInt 5))
      c1.or (fun c => (c.when P2).gt (.ok (condition.Value.ofInt 3))))
    = Except.ok (⟨[[⟨⟨P1⟩, .Value (.Number (.int 5))⟩],
        [⟨⟨P2⟩, .Expr ⟨.Number (.int 3), .Gt⟩⟩]]⟩ : builder.Condition true false) := by
  have e1 : hazard.JsonPointer.tryFrom P1 = .ok ⟨P1⟩ := by
    simp [hazard.JsonPointer.tryFrom, h1]
  have e2 : hazard.JsonPointer.tryFrom P2 = .ok ⟨P2⟩ := by
    simp [hazard.JsonPointer.tryFrom, h2]
  simp [builder.Condition.when, builder.Condition.and, builder.Condition.add_condition,
    builder.Condition.or,
    builder.PartialCondition.eq, builder.PartialCondition.gt, builder.PartialCondition.expr,
    builder.PartialCondition.op, e1, e2, condition.Value.ofInt, bind, Except.bind]

/-- Witness for C2 at the pointers `/a` and `/b`. -/
theorem claim_C2_witness :
    validPointerString "/a" = true ∧ validPointerString "/b" = true ∧
    (do
      let c1 ← ((⟨[]⟩ : builder.Condition false false).when "/a").eq
        (.ok (condition.Value.ofInt 5))
      c1.or (fun c => (c.when "/b").gt (.ok (condition.Value.ofInt 3))))
    = Except.ok (⟨[[⟨⟨"/a"⟩, .Value (.Number (.int 5))⟩],
        [⟨⟨"/b"⟩, .Expr ⟨.Number (.int 3), .Gt⟩⟩]]⟩ : builder.Condition true false) :=
  ⟨rfl, rfl, claim_C2_or_semantics "/a" "/b" rfl rfl⟩

/-- Claim C3: for every completed build — a condition-builder program run
from a fresh builder, with every runtime check passing — every inner
AND-sequence of the resulting condition set contains at least one element,
even though `when`/`and` on an empty outer sequence and `or` both push an
empty inner group before any element is committed.  `builder.Prog`
enumerates exactly the call sequences the Rust typestate admits. -/
theorem claim_C3_no_empty_inner_group (p : builder.Prog)
    (cs : List (List hazard.Condition))
    (h : builder.runProg ⟨[]⟩ p = .ok cs) :
    ∀ g ∈ cs, g ≠ [] := by
  cases p with
  | done =>
    cases h
    simp
  | build first rest =>
    simp only [builder.runProg] at h
    cases h1 : ((⟨[]⟩ : builder.Condition false false).when first.pointer).applyCmp
        first.cmp first.value with
    | error e => rw [h1] at h; cases h
    | ok c1 =>
      rw [h1] at h
      simp only [bind, Except.bind] at h
      cases h2 : rest.foldlM builder.runItem c1 with
      | error e => rw [h2] at h; cases h
      | ok cf =>
        rw [h2] at h
        cases h
        obtain ⟨hs1, hs2⟩ := builder.start_inv _ _ _ _ h1
        exact (builder.foldlM_runItem_inv rest c1 cf hs1 hs2 h2).2

/-- Witness for C3: the program `when("/a").eq(5).or(fun c =>
c.when("/b").gt(3))` completes with the two-group set `demoSet`, and its
first inner group is non-empty by the theorem. -/
theorem claim_C3_witness :
    builder.runProg ⟨[]⟩ demoProg = .ok demoSet ∧
    [(⟨⟨"/a"⟩, .Value (.Number (.int 5))⟩ : hazard.Condition)] ≠ [] :=
  ⟨rfl, claim_C3_no_empty_inner_group demoProg demoSet rfl
    [⟨⟨"/a"⟩, .Value (.Number (.int 5))⟩] (by simp [demoSet])⟩

/-- Claim C4: for every sequence of hazard-accumulator calls (each with an
arbitrary condition-builder function), if the run succeeds the risks
catalogue contains exactly one entry per distinct hazard identifier used,
in order of first appearance, regardless of how many hazards share an
identifier. -/
theorem claim_C4_catalogue_dedup (calls : List HazardCall) (b' : Builder)
    (h : Builder.runCalls ⟨[], []⟩ calls = .ok b') :
    b'.risks = (firstSeen [] (calls.map HazardCall.id)).map hazard.Id.risk :=
  risks_inv calls ⟨[], []⟩ b' [] rfl h

/-- Witness for C4: identifiers `[FireHazard, FireHazard, Explosion]` yield
the catalogue `[FIRE_HAZARD, EXPLOSION]`. -/
theorem claim_C4_witness :
    Builder.runCalls ⟨[], []⟩ demoCalls = .ok demoBuilt ∧
    demoBuilt.risks = (firstSeen [] (demoCalls.map HazardCall.id)).map hazard.Id.risk ∧
    (firstSeen [] (demoCalls.map HazardCall.id)).map hazard.Id.risk
      = [risk.FIRE_HAZARD, risk.EXPLOSION] :=
  ⟨rfl, claim_C4_catalogue_dedup demoCalls demoBuilt rfl, rfl⟩

/-- Claim C5: a comparison call (`eq`, `ne`, `lt`, `le`, `gt`, `ge`) on a
partially specified condition aborts if and only if the held pointer string
is not a valid JSON pointer or the supplied value fails to convert to a
scalar value; on success exactly one `(pointer, condition)` pair is appended
to the clause at the current index, with `eq` committing the bare-value
equality form and the other five committing `Expr` with the corresponding
operator (`builder.cmpCondition`).  The abort is modelled as an `Except`
error, which carries no state: no element is committed on abort. -/
theorem claim_C5_comparison_abort (NESTED : Bool)
    (p : builder.PartialCondition NESTED) (cmp : builder.CmpOp)
    (v : Except String condition.Value) :
    ((∃ e, p.applyCmp cmp v = .error e) ↔
      (validPointerString p.pointer = false ∨ ∃ s, v = .error s))
    ∧ (∀ c', p.applyCmp cmp v = .ok c' →
        ∃ ptr val, hazard.JsonPointer.tryFrom p.pointer = .ok ptr ∧ v = .ok val ∧
          c'.conditions = p.conditions.set p.outer_index
            ((p.conditions.getD p.outer_index []) ++
              [⟨ptr, builder.cmpCondition cmp val⟩])) := by
  constructor
  · rw [builder.applyCmp_eq_op, builder.op_err_iff]
    have hiff : (hazard.JsonPointer.tryFrom p.pointer).isOk = false ↔
        validPointerString p.pointer = false := by
      unfold hazard.JsonPointer.tryFrom
      by_cases h : validPointerString p.pointer = true
      · simp [h, Except.isOk, Except.toBool]
      · simp only [Bool.not_eq_true] at h
        simp [h, Except.isOk, Except.toBool]
    rw [hiff]
  · intro c' h
    rw [builder.applyCmp_eq_op, builder.op_eq_ok_iff] at h
    obtain ⟨ptr, val, ha, hb, rfl⟩ := h
    exact ⟨ptr, val, ha, hb, rfl⟩

/-- Witness for C5: `eq(5)` on the pointer `/a` in a fresh single-clause
state commits `(“/a”, EqualsValue(5))`. -/
theorem claim_C5_witness :
    ∃ ptr val, hazard.JsonPointer.tryFrom "/a" = .ok ptr
      ∧ (Except.ok (condition.Value.ofInt 5) : Except String condition.Value) = .ok val
      ∧ ([[(⟨⟨"/a"⟩, .Value (condition.Value.ofInt 5)⟩ : hazard.Condition)]]
            : List (List hazard.Condition))
          = ([[]] : List (List hazard.Condition)).set 0
              ((([[]] : List (List hazard.Condition)).getD 0 []) ++
                [⟨ptr, builder.cmpCondition .ceq val⟩]) :=
  (claim_C5_comparison_abort false ⟨[[]], 0, "/a"⟩ .ceq
      (.ok (condition.Value.ofInt 5))).2
    ⟨[[⟨⟨"/a"⟩, .Value (condition.Value.ofInt 5)⟩]]⟩ rfl

/-- Claim C6: constructing a scalar value from an `f64` (or `f32`) fails
with `InvalidFloat` exactly when the input is NaN or infinite, and succeeds
with a `Number` value exactly when the input is finite; no other outcome is
possible. -/
theorem claim_C6_float_scalar (x : F64) (y : F32) :
    (condition.Value.tryFromF64 x = .error .mk ↔ x.isFinite = false)
    ∧ (x.isFinite = true ↔
        ∃ q, x = .finite q ∧
          condition.Value.tryFromF64 x = .ok (.Number (.float q)))
    ∧ (condition.Value.tryFromF32 y = .error .mk ↔ y.isFinite = false)
    ∧ (y.isFinite = true ↔
        ∃ q, y = .finite q ∧
          condition.Value.tryFromF32 y = .ok (.Number (.float q))) := by
  refine ⟨?_, ?_, ?_, ?_⟩
  · cases x <;> simp [condition.Value.tryFromF64, Number.from_f64, F64.isFinite]
  · cases x <;> simp [condition.Value.tryFromF64, Number.from_f64, F64.isFinite]
  · cases y <;> simp [condition.Value.tryFromF32, condition.Value.tryFromF64,
      Number.from_f64, F32.isFinite, F32.toF64]
  · cases y <;> simp [condition.Value.tryFromF32, condition.Value.tryFromF64,
      Number.from_f64, F32.isFinite, F32.toF64]

/-- Witness for C6: the NaN double is rejected with `InvalidFloat`. -/
theorem claim_C6_witness :
    condition.Value.tryFromF64 F64.nan = .error .mk :=
  (claim_C6_float_scalar F64.nan F32.nan).1.mpr rfl

/-- Counterexample to C7 as stated: the empty string lacks a leading
separator, yet constructing a pointer from it succeeds — it is the valid
root pointer of RFC 6901 — rather than failing with `InvalidJsonPointer`. -/
theorem claim_C7_counterexample :
    "".data = ([] : List Char) ∧
    hazard.JsonPointer.tryFrom "" = .ok ⟨""⟩ :=
  ⟨rfl, rfl⟩

/-- Claim C7 (amended): for every non-empty string whose first character is
not the separator `/`, constructing a pointer fails with
`InvalidJsonPointer` carrying the offending text; the empty string is the
valid root pointer and is accepted. -/
theorem claim_C7_amended (s : String) (c : Char) (cs : List Char)
    (hdata : s.data = c :: cs) (hc : c ≠ '/') :
    hazard.JsonPointer.tryFrom s = .error (.mk s) := by
  unfold hazard.JsonPointer.tryFrom validPointerString
  rw [hdata]
  simp [hc]

/-- Witness for the amended C7 at the string `x`. -/
theorem claim_C7_witness :
    hazard.JsonPointer.tryFrom "x" = .error (.mk "x") :=
  claim_C7_amended "x" 'x' [] rfl (by decide)

/-- Claim C8: for every accumulator state, identifier and level, calling
the hazard accumulator with the identity condition function (never calling
`when`) appends exactly one hazard whose risk id is the identifier, whose
level is the given level, and whose condition set is empty. -/
theorem claim_C8_identity_hazard (b : Builder) (id : hazard.Id) (level : Nat) :
    ∃ b', Builder.hazard b id level (fun c => .ok c) = .ok b'
      ∧ b'.hazards = b.hazards ++ [⟨⟨id, level⟩, []⟩] :=
  ⟨_, rfl, rfl⟩

/-- Claim C9: frame effects of the single builder operations.
First, `add_condition` (the shared implementation of `when` and `and`)
appends one empty inner group exactly when the outer sequence is empty,
commits nothing else, and points at the last group.  Second, a successful
comparison call on a state whose index is the last group appends exactly
one pair to that last group, leaving every other group unchanged.  Third,
`or` (with the nested program its closure runs) appends exactly one new
inner group at the end, leaving all previous groups unchanged. -/
theorem claim_C9_frame :
    (∀ (INIT NESTED : Bool) (c : builder.Condition INIT NESTED) (ptr : String),
      (c.add_condition ptr).conditions
          = (if c.conditions.isEmpty then c.conditions ++ [[]] else c.conditions)
        ∧ (c.add_condition ptr).outer_index
          = (c.add_condition ptr).conditions.length - 1)
    ∧ (∀ (NESTED : Bool) (p : builder.PartialCondition NESTED)
        (cmp : builder.CmpOp) (v : Except String condition.Value)
        (c' : builder.Condition true NESTED)
        (A : List (List hazard.Condition)) (g : List hazard.Condition),
        p.conditions = A ++ [g] → p.outer_index = A.length →
        p.applyCmp cmp v = .ok c' →
        ∃ x, c'.conditions = A ++ [g ++ [x]])
    ∧ (∀ (c : builder.Condition true false) (np : builder.NestedProg)
        (c' : builder.Condition true false),
        builder.Condition.or c (fun x => builder.runNested x np) = .ok c' →
        ∃ g, c'.conditions = c.conditions ++ [g]) := by
  refine ⟨?_, ?_, ?_⟩
  · intro INIT NESTED c ptr
    unfold builder.Condition.add_condition
    by_cases h : c.conditions.isEmpty
    · rw [if_pos h, if_pos h]
      have : c.conditions = [] := List.isEmpty_iff.mp h
      simp [this]
    · rw [if_neg h, if_neg h]
      exact ⟨rfl, rfl⟩
  · intro NESTED p cmp v c' A g hp hi h
    exact builder.applyCmp_ok_concat p cmp v c' A g hp hi h
  · intro c np c' h
    exact builder.or_frame c np c' h

/-- Witness for C9: the three frame effects at concrete inputs — `when` on
a fresh builder, `eq(5)` on the resulting state, and `or` running
`when("/b").gt(3)` after one committed clause. -/
theorem claim_C9_witness :
    (((⟨[]⟩ : builder.Condition false false).add_condition "/a").conditions
        = (if ([] : List (List hazard.Condition)).isEmpty
            then ([] : List (List hazard.Condition)) ++ [[]]
            else ([] : List (List hazard.Condition)))
      ∧ ((⟨[]⟩ : builder.Condition false false).add_condition "/a").outer_index
        = (((⟨[]⟩ : builder.Condition false false).add_condition "/a").conditions.length - 1))
    ∧ (∃ x, ([[(⟨⟨"/a"⟩, .Value (condition.Value.ofInt 5)⟩ : hazard.Condition)]]
          : List (List hazard.Condition)) = [] ++ [[] ++ [x]])
    ∧ (∃ g, (demoSet : List (List hazard.Condition))
          = [[(⟨⟨"/a"⟩, .Value (.Number (.int 5))⟩ : hazard.Condition)]] ++ [g]) := by
  refine ⟨claim_C9_frame.1 false false ⟨[]⟩ "/a", ?_, ?_⟩
  · exact claim_C9_frame.2.1 false ⟨[[]], 0, "/a"⟩ .ceq (.ok (condition.Value.ofInt 5))
      ⟨[[⟨⟨"/a"⟩, .Value (condition.Value.ofInt 5)⟩]]⟩ [] [] rfl rfl rfl
  · exact claim_C9_frame.2.2 ⟨[[⟨⟨"/a"⟩, .Value (.Number (.int 5))⟩]]⟩ demoNested
      ⟨demoSet⟩ rfl

/-- Claim C10: the `debug_assert` inside `or` — that the outer OR-sequence
is non-empty — can never fire: every builder value with the `INIT` type
flag true that is reachable through the public API has a non-empty outer
sequence.  Reachable `Condition<true, false>` values are exactly the
successful results of `builder.runToInit`: a first committed comparison
(the only way `INIT` becomes true from a fresh builder) followed by any
sequence of `and`/`or` operations — in particular every receiver of an
`or` call is of this shape. -/
theorem claim_C10_or_assert (first : builder.Step) (rest : List builder.Item)
    (c' : builder.Condition true false)
    (h : builder.runToInit first rest = .ok c') :
    c'.conditions ≠ [] :=
  (builder.runToInit_inv first rest c' h).1

/-- Witness for C10: after `when("/a").eq(5)` and an `or` group, the outer
sequence is the two-group `demoSet`, which is non-empty. -/
theorem claim_C10_witness :
    builder.runToInit demoStep1 [builder.Item.orGroup demoNested]
        = .ok ⟨demoSet⟩ ∧
    (⟨demoSet⟩ : builder.Condition true false).conditions ≠ [] :=
  ⟨rfl, claim_C10_or_assert demoStep1 [builder.Item.orGroup demoNested] ⟨demoSet⟩ rfl⟩
